import Mathlib

/-!
Verification of the parsing, sorting, pagination and analysis pipeline of the
macOS resource-monitor server (`src/mac_monitor/monitor.py`).

Python strings are embedded as `List Char` (`PyStr`), Python `int` as `ℤ`,
Python `float` values occurring here as `ℚ` (all arithmetic performed on them
in the source is exact on the decimal literals involved), Python `list` as
`List`, and a raised exception as `Except.error` / a dropped item as `none`.
-/

/-- Python strings are modelled as lists of characters. -/
abbrev PyStr := List Char

/-- The characters Python's `str.split(None)` and `str.strip()` treat as
whitespace (restricted to the ASCII whitespace characters). -/
def pyIsSpace (c : Char) : Bool :=
  c = ' ' || c = '\t' || c = '\n' || c = '\x0b' || c = '\x0c' || c = '\r'

/-- Python `str.lower()` restricted to ASCII letters. -/
def pyLowerChar (c : Char) : Char :=
  if 'A' ≤ c ∧ c ≤ 'Z' then Char.ofNat (c.toNat + 32) else c

/-- Python `str.lower()` on a whole string. -/
def pyLower (s : PyStr) : PyStr := s.map pyLowerChar

/-- Python `str.strip()`: remove leading and trailing whitespace. -/
def pyStrip (s : PyStr) : PyStr :=
  ((s.dropWhile pyIsSpace).reverse.dropWhile pyIsSpace).reverse

/-- Python `s.split('\n')`: split at every newline, keeping empty pieces. -/
def splitNl : PyStr → List PyStr
  | [] => [[]]
  | c :: cs =>
    if c = '\n' then [] :: splitNl cs
    else
      match splitNl cs with
      | [] => [[c]]
      | t :: ts => (c :: t) :: ts

/-- Python `'\n'.join(lines)`, used to build concrete process-listing texts. -/
def joinNl : List PyStr → PyStr
  | [] => []
  | [l] => l
  | l :: ls => l ++ '\n' :: joinNl ls

/-- Core loop of CPython's whitespace `str.split` with a bounded number of
splits: the argument is assumed to have had its leading whitespace removed;
while splits remain, take a maximal non-whitespace token and skip the
whitespace after it; when the count is exhausted, the whole remainder
(trailing whitespace included) is the final part. -/
def pySplitGo : Nat → PyStr → List PyStr
  | _, [] => []
  | 0, r => [r]
  | n + 1, r =>
    (r.takeWhile fun c => !pyIsSpace c) ::
      pySplitGo n (((r.dropWhile fun c => !pyIsSpace c).dropWhile pyIsSpace))

/-- Python `s.split(None, maxsplit)`. -/
def pySplitMax (n : Nat) (s : PyStr) : List PyStr :=
  pySplitGo n (s.dropWhile pyIsSpace)

/-- Python `s.split()` (unlimited whitespace split): `s.length` splits always
suffice, since each split consumes at least one character. -/
def pySplit (s : PyStr) : List PyStr :=
  pySplitGo s.length (s.dropWhile pyIsSpace)

/-- Numeric value of a list of decimal digit characters. -/
def digitsVal (l : PyStr) : ℕ :=
  l.foldl (fun a c => 10 * a + (c.toNat - 48)) 0

/-- Python `int(s)` (model of the builtin, restricted to an optional sign
followed by decimal digits; the builtin additionally allows surrounding
whitespace, underscores and other bases, none of which occur here). -/
def pyInt (s : PyStr) : Option ℤ :=
  match s with
  | '-' :: ds =>
    if ds ≠ [] ∧ ds.all Char.isDigit then some (-(digitsVal ds : ℤ)) else none
  | '+' :: ds =>
    if ds ≠ [] ∧ ds.all Char.isDigit then some (digitsVal ds : ℤ) else none
  | ds =>
    if ds ≠ [] ∧ ds.all Char.isDigit then some (digitsVal ds : ℤ) else none

/-- Split a string at its first `'.'`, if any. -/
def splitDot : PyStr → PyStr × Option PyStr
  | [] => ([], none)
  | c :: cs =>
    if c = '.' then ([], some cs)
    else
      let (a, b) := splitDot cs
      (c :: a, b)

/-- Python `float(s)` (model of the builtin, restricted to an optional sign
followed by a decimal literal `digits`, `digits.digits`, `digits.` or
`.digits`; the builtin additionally allows exponents, `inf`/`nan` and
surrounding whitespace, none of which occur in well-formed `ps` output). -/
def pyFloatBody (s : PyStr) : Option ℚ :=
  match splitDot s with
  | (ip, none) =>
    if ip ≠ [] ∧ ip.all Char.isDigit then some (digitsVal ip : ℚ) else none
  | (ip, some fp) =>
    if (ip ≠ [] ∨ fp ≠ []) ∧ ip.all Char.isDigit ∧ fp.all Char.isDigit then
      some ((digitsVal ip : ℚ) + (digitsVal fp : ℚ) / (10 : ℚ) ^ fp.length)
    else none

/-- Python `float(s)` including the optional leading sign. -/
def pyFloat (s : PyStr) : Option ℚ :=
  match s with
  | '-' :: ds => (pyFloatBody ds).map (fun q => -q)
  | '+' :: ds => pyFloatBody ds
  | ds => pyFloatBody ds

/-- A process record: the Python dicts built by the monitor, with `none`
standing for an absent key.  The `error` field models the `'error'` key that
the network fallback path can place in a record. -/
structure ProcRec where
  pid : Option PyStr
  cpu_percent : Option ℚ
  memory_percent : Option ℚ
  resident_memory_kb : Option ℤ
  network_connections : Option ℤ
  command : Option PyStr
  error : Option PyStr
deriving DecidableEq

/-- A CPU record as built by the parsers in `monitor.py`. -/
def mkCpuRec (pid : PyStr) (cpu : ℚ) (cmd : PyStr) : ProcRec :=
  { pid := some pid, cpu_percent := some cpu, memory_percent := none,
    resident_memory_kb := none, network_connections := none,
    command := some cmd, error := none }

/-- A memory record as built by the parsers in `monitor.py`. -/
def mkMemRec (pid : PyStr) (pmem : ℚ) (rss : ℤ) (cmd : PyStr) : ProcRec :=
  { pid := some pid, cpu_percent := none, memory_percent := some pmem,
    resident_memory_kb := some rss, network_connections := none,
    command := some cmd, error := none }

/-- One data line of `get_all_cpu_processes` (lines 268-281): skip blank
lines, split into at most 3 parts, and build a record when there are at least
3 parts and the CPU column parses as a float; otherwise the line is dropped
(`continue` on `ValueError`). -/
def parseCpuLine (line : PyStr) : Option ProcRec :=
  if pyStrip line = [] then none
  else
    let parts := pySplitMax 2 line
    if parts.length ≥ 3 then
      match pyFloat (parts.getD 1 []) with
      | some v => some (mkCpuRec (parts.getD 0 []) v (parts.getD 2 []))
      | none => none
    else none

/-- `get_all_cpu_processes` applied to the text returned by `run_command`:
drop the header line, parse each remaining line, keep the successes. -/
def getAllCpuProcesses (output : PyStr) : List ProcRec :=
  ((splitNl output).drop 1).filterMap parseCpuLine

/-- One data line of `get_all_memory_processes` (lines 293-307): split into
at most 4 parts; need 4 parts, a float memory column and an int rss column. -/
def parseMemLine (line : PyStr) : Option ProcRec :=
  if pyStrip line = [] then none
  else
    let parts := pySplitMax 3 line
    if parts.length ≥ 4 then
      match pyFloat (parts.getD 1 []), pyInt (parts.getD 2 []) with
      | some v, some r => some (mkMemRec (parts.getD 0 []) v r (parts.getD 3 []))
      | _, _ => none
    else none

/-- `get_all_memory_processes` applied to the text returned by `run_command`. -/
def getAllMemoryProcesses (output : PyStr) : List ProcRec :=
  ((splitNl output).drop 1).filterMap parseMemLine

/-- Error message raised by Python's `float()` on a bad literal. -/
def floatErrMsg : PyStr := ("ValueError: could not convert string to float").toList

/-- Error message raised by Python's `int()` on a bad literal. -/
def intErrMsg : PyStr := ("ValueError: invalid literal for int").toList

/-- One line of `get_cpu_intensive_processes` (lines 195-203): unlike the
unbounded variant there is no try/except, so a line with at least 3 parts
whose CPU column is not a float raises `ValueError` out of the function. -/
def parseCpuLineTop (line : PyStr) : Except PyStr (Option ProcRec) :=
  let parts := pySplitMax 2 line
  if parts.length ≥ 3 then
    match pyFloat (parts.getD 1 []) with
    | some v => .ok (some (mkCpuRec (parts.getD 0 []) v (parts.getD 2 [])))
    | none => .error floatErrMsg
  else .ok none

/-- One line of `get_memory_intensive_processes` (lines 215-224), again with
no exception handling around `float`/`int`. -/
def parseMemLineTop (line : PyStr) : Except PyStr (Option ProcRec) :=
  let parts := pySplitMax 3 line
  if parts.length ≥ 4 then
    match pyFloat (parts.getD 1 []) with
    | some v =>
      match pyInt (parts.getD 2 []) with
      | some r => .ok (some (mkMemRec (parts.getD 0 []) v r (parts.getD 3 [])))
      | none => .error intErrMsg
    | none => .error floatErrMsg
  else .ok none

/-- The accumulation loop of the bounded parsers: a raised exception aborts
the whole traversal (no records are returned). -/
def topLoop (f : PyStr → Except PyStr (Option ProcRec)) :
    List PyStr → Except PyStr (List ProcRec)
  | [] => .ok []
  | l :: ls =>
    match f l with
    | .error e => .error e
    | .ok none => topLoop f ls
    | .ok (some r) => (topLoop f ls).map (r :: ·)

/-- `get_cpu_intensive_processes(limit)` on the text returned by
`run_command`: iterate over `lines[1:limit+1]`. -/
def getCpuIntensiveProcesses (limit : Nat) (output : PyStr) :
    Except PyStr (List ProcRec) :=
  topLoop parseCpuLineTop (((splitNl output).drop 1).take limit)

/-- `get_memory_intensive_processes(limit)` on the text returned by
`run_command`. -/
def getMemoryIntensiveProcesses (limit : Nat) (output : PyStr) :
    Except PyStr (List ProcRec) :=
  topLoop parseMemLineTop (((splitNl output).drop 1).take limit)

/-- Stable insertion into an ascending-sorted list: the new element goes
after every element with a strictly smaller key and before the first element
whose key is not smaller, so elements with equal keys keep their relative
order. -/
def insStable {α K : Type} [LinearOrder K] (key : α → K) (a : α) :
    List α → List α
  | [] => [a]
  | b :: l => if key b < key a then b :: insStable key a l else a :: b :: l

/-- Stable ascending sort by a key, the semantics of Python's
`sorted(xs, key=key)`. -/
def pySortAsc {α K : Type} [LinearOrder K] (key : α → K) : List α → List α
  | [] => []
  | a :: l => insStable key a (pySortAsc key l)

/-- Python `sorted(xs, key=key, reverse=rev)`.  CPython implements
`reverse=True` by reversing the list, sorting it ascending with the stable
sort, and reversing the result again, which keeps equal-key elements in their
original order. -/
def pySorted {α K : Type} [LinearOrder K] (key : α → K) (rev : Bool)
    (xs : List α) : List α :=
  if rev then (pySortAsc key xs.reverse).reverse else pySortAsc key xs

/-- String constants used by the query interface. -/
def sCpu : PyStr := ("cpu").toList

def sMemory : PyStr := ("memory").toList

def sNetwork : PyStr := ("network").toList

def sAuto : PyStr := ("auto").toList

def sAsc : PyStr := ("asc").toList

def sDesc : PyStr := ("desc").toList

def sPid : PyStr := ("pid").toList

def sCommand : PyStr := ("command").toList

def sCpuPercent : PyStr := ("cpu_percent").toList

def sMemoryPercent : PyStr := ("memory_percent").toList

def sResidentMemoryKb : PyStr := ("resident_memory_kb").toList

def sNetworkConnections : PyStr := ("network_connections").toList

def sUnknown : PyStr := ("unknown").toList

/-- The key function `pid_key` of `sort_processes` (lines 356-360): `int()`
of the pid, with `ValueError`/`TypeError` mapped to the sentinel 0.  A record
with no `'pid'` key instead raises `KeyError`, which this inner handler does
not catch; that case is handled at the call site below. -/
def pidKey (p : ProcRec) : ℤ :=
  match p.pid with
  | some s => (pyInt s).getD 0
  | none => 0

/-- The `command` sort key: `p.get('command', '').lower()`. -/
def commandKey (p : ProcRec) : PyStr := pyLower (p.command.getD [])

/-- `sort_processes(processes, process_type, sort_by, sort_order)`
(lines 346-385).  The first guard mirrors
`if not processes or 'error' in processes[0]`.  In the `pid` branch, a record
without a `'pid'` key makes the key function raise `KeyError`, which escapes
`sorted` and is caught by the outer `except`, returning the input unsorted;
this is modelled by the `all (·.pid.isSome)` guard.  `process_type` is unused
by the source function as well. -/
def sortProcesses (processes : List ProcRec) (process_type sort_by sort_order : PyStr) :
    List ProcRec :=
  match processes with
  | [] => processes
  | p0 :: _ =>
    if p0.error.isSome then processes
    else
      let rev := sort_order = sDesc
      let _ := process_type
      if sort_by = sPid then
        if processes.all (·.pid.isSome) then pySorted pidKey rev processes
        else processes
      else if sort_by = sCommand then pySorted commandKey rev processes
      else if sort_by = sCpuPercent then
        pySorted (fun p => p.cpu_percent.getD 0) rev processes
      else if sort_by = sMemoryPercent then
        pySorted (fun p => p.memory_percent.getD 0) rev processes
      else if sort_by = sResidentMemoryKb then
        pySorted (fun p => p.resident_memory_kb.getD 0) rev processes
      else if sort_by = sNetworkConnections then
        pySorted (fun p => p.network_connections.getD 0) rev processes
      else processes

/-- Increment the connection count of a command name in the insertion-ordered
tally, mirroring `process_counts[process] = process_counts.get(process, 0)+1`
on a Python dict (a new key is appended at the end). -/
def bumpCount (k : PyStr) : List (PyStr × ℕ) → List (PyStr × ℕ)
  | [] => [(k, 1)]
  | (k', n) :: rest =>
    if k' = k then (k', n + 1) :: rest else (k', n) :: bumpCount k rest

/-- Record the first pid seen for a command name, mirroring
`if process not in process_pids: process_pids[process] = pid`. -/
def addPid (k pid : PyStr) (m : List (PyStr × PyStr)) : List (PyStr × PyStr) :=
  if m.any (fun e => e.1 = k) then m else m ++ [(k, pid)]

/-- Dict lookup `process_pids.get(process, 'unknown')`. -/
def lookupPid (k : PyStr) (m : List (PyStr × PyStr)) : PyStr :=
  ((m.find? (fun e => e.1 = k)).map (·.2)).getD sUnknown

/-- `get_all_network_processes` (lines 311-344) on the text returned by
`run_command`: tally connection counts per command over `lines[1:]` with at
least 9 whitespace-separated fields, then sort the tally by count descending
(stable) and build records. -/
def getAllNetworkProcesses (output : PyStr) : List ProcRec :=
  let step := fun (st : List (PyStr × ℕ) × List (PyStr × PyStr)) (line : PyStr) =>
    let parts := pySplit line
    if parts.length ≥ 9 then
      let process := parts.getD 0 []
      let pid := parts.getD 1 []
      (bumpCount process st.1, addPid process pid st.2)
    else st
  let tally := ((splitNl output).drop 1).foldl step ([], [])
  let sortedCounts := pySorted (fun x => x.2) true tally.1
  sortedCounts.map fun x =>
    { pid := some (lookupPid x.1 tally.2), cpu_percent := none,
      memory_percent := none, resident_memory_kb := none,
      network_connections := some (x.2 : ℤ), command := some x.1,
      error := none }

/-- The texts produced by the three `run_command` invocations that feed
`get_processes_by_category`; passing them explicitly replaces the
subprocess side effects. -/
structure Env where
  cpuOut : PyStr
  memOut : PyStr
  netOut : PyStr

/-- Lines 98-104: retrieve the full process list for a (validated, already
lowercased) category.  An invalid category cannot reach this point; the
final branch is unreachable. -/
def fetchAll (env : Env) (t : PyStr) : List ProcRec :=
  if t = sCpu then getAllCpuProcesses env.cpuOut
  else if t = sMemory then getAllMemoryProcesses env.memOut
  else if t = sNetwork then getAllNetworkProcesses env.netOut
  else []

/-- The `valid_sort_fields` table (lines 86-90); the lookup is only reached
with a validated category, so the default branch is unreachable. -/
def validSortFields (t : PyStr) : List PyStr :=
  if t = sCpu then [sAuto, sCpuPercent, sPid, sCommand]
  else if t = sMemory then [sAuto, sMemoryPercent, sResidentMemoryKb, sPid, sCommand]
  else if t = sNetwork then [sAuto, sNetworkConnections, sPid, sCommand]
  else []

/-- `', '.join(items)`. -/
def joinComma : List PyStr → PyStr
  | [] => []
  | [x] => x
  | x :: xs => x ++ (", ").toList ++ joinComma xs

/-- The f-string of the invalid-`process_type` error (lines 66-68). -/
def invalidTypeMsg (t : PyStr) : PyStr :=
  ("Invalid process_type \x27").toList ++ t ++
    ("\x27. Must be one of: ").toList ++ joinComma [sCpu, sMemory, sNetwork]

/-- The f-string of the invalid-`sort_by` error (lines 94-96), which names
the valid options of the requested category. -/
def invalidSortMsg (sb t : PyStr) : PyStr :=
  ("Invalid sort_by \x27").toList ++ sb ++ ("\x27 for ").toList ++ t ++
    (" processes. Valid options: ").toList ++ joinComma (validSortFields t)

/-- Sorting metadata echoed in the response (lines 134-138). -/
structure SortMeta where
  sort_by : PyStr
  sort_order : PyStr
  requested_sort_by : PyStr
deriving DecidableEq

/-- Pagination metadata echoed in the response (lines 139-146). -/
structure PageMeta where
  current_page : ℤ
  page_size : ℤ
  total_processes : ℤ
  total_pages : ℤ
  has_next_page : Bool
  has_previous_page : Bool
deriving DecidableEq

/-- The successful response object of `get_processes_by_category`
(lines 131-147). -/
structure CategoryResult where
  process_type : PyStr
  processes : List ProcRec
  sorting : SortMeta
  pagination : PageMeta
deriving DecidableEq

/-- A JSON response: either the result object or an error object
(`json.dumps` itself is serialization plumbing and not modelled). -/
inductive QueryResult where
  | ok (r : CategoryResult)
  | err (msg : PyStr)
deriving DecidableEq

/-- Python list slicing `l[a:b]` for the non-negative indices produced by the
pagination arithmetic (`a = (page-1)*page_size ≥ 0`,
`b = min(a+page_size, len) ≥ 0`). -/
def pySlice (l : List ProcRec) (a b : ℤ) : List ProcRec :=
  (l.drop a.toNat).take (b.toNat - a.toNat)

/-- `get_processes_by_category(process_type, page, page_size, sort_by,
sort_order)` (lines 43-154), with the three command outputs passed in as
`env`.  Integer division here is on non-negative operands, where Lean's
`Int` division agrees with Python's floor division. -/
def getProcessesByCategory (env : Env) (process_type : PyStr)
    (page page_size : ℤ) (sort_by sort_order : PyStr) : QueryResult :=
  if ¬ [sCpu, sMemory, sNetwork].contains (pyLower process_type) then
    .err (invalidTypeMsg process_type)
  else
    let page := if page < 1 then 1 else page
    let page_size := if page_size < 1 then 10
      else if page_size > 100 then 100 else page_size
    let sort_order :=
      let so := pyLower sort_order
      if [sAsc, sDesc].contains so then so else sDesc
    let sort_by := pyLower sort_by
    let process_type := pyLower process_type
    if ¬ (validSortFields process_type).contains sort_by then
      .err (invalidSortMsg sort_by process_type)
    else
      let all0 := fetchAll env process_type
      let all_processes :=
        if sort_by ≠ sAuto then
          sortProcesses all0 process_type sort_by sort_order
        else all0
      let total_processes : ℤ := all_processes.length
      let start_index := (page - 1) * page_size
      let end_index := min (start_index + page_size) total_processes
      let paginated := pySlice all_processes start_index end_index
      let total_pages := (total_processes + page_size - 1) / page_size
      let actual_sort_by :=
        if sort_by = sAuto then
          if process_type = sCpu then sCpuPercent
          else if process_type = sMemory then sMemoryPercent
          else sNetworkConnections
        else sort_by
      .ok
        { process_type := process_type
          processes := paginated
          sorting :=
            { sort_by := actual_sort_by, sort_order := sort_order,
              requested_sort_by := sort_by }
          pagination :=
            { current_page := page, page_size := page_size,
              total_processes := total_processes, total_pages := total_pages,
              has_next_page := decide (page < total_pages),
              has_previous_page := decide (page > 1) } }

/-- Projection helpers for stating concrete facts about query responses. -/
def QueryResult.pageLen : QueryResult → Option ℕ
  | .ok r => some r.processes.length
  | .err _ => none

def QueryResult.pageMeta : QueryResult → Option PageMeta
  | .ok r => some r.pagination
  | .err _ => none

def QueryResult.sortMeta : QueryResult → Option SortMeta
  | .ok r => some r.sorting
  | .err _ => none

/-- Outcome of `subprocess.run(cmd, capture_output=True, text=True,
timeout=10)`, the external collaborator of `run_command`: the child either
ran to completion with some exit status and captured stdout, timed out
(`TimeoutExpired`), or could not be spawned (e.g. `FileNotFoundError`). -/
inductive RunOutcome where
  | completed (stdout : PyStr) (returncode : ℤ)
  | timeout (msg : PyStr)
  | spawnFailure (msg : PyStr)
deriving DecidableEq

/-- The fixed text prepended by `run_command`'s exception handler. -/
def runErrHead : PyStr := ("Error running command: ").toList

/-- `run_command` (lines 179-185): since `subprocess.run` is called without
`check=True`, completion with a non-zero exit status raises nothing and the
stripped stdout is returned; only the exceptional outcomes reach the handler,
which returns an error string carrying `str(e)`. -/
def run_command (o : RunOutcome) : PyStr :=
  match o with
  | .completed out _ => pyStrip out
  | .timeout m => runErrHead ++ m
  | .spawnFailure m => runErrHead ++ m

/-- The fields of the dict returned by `get_cpu_overview` that
`analyze_system_performance` reads: `total_usage_percent` when present,
`load_average['1min']` when the `load_average` key is present, and `cores`
when the key is present with an `int` value (it otherwise holds the string
`'unknown'`, which fails the `isinstance` check and is modelled as `none`). -/
structure CpuOverview where
  total_usage_percent : Option ℚ
  load_average_1min : Option ℚ
  cores : Option ℤ
deriving DecidableEq

/-- The field of `get_memory_overview`'s dict that the analyzer reads. -/
structure MemOverview where
  used_percent : Option ℚ
deriving DecidableEq

/-- The part of `get_disk_overview`'s dict that the analyzer reads: the outer
`Option` is the presence of the `summary` key (absent when the overview
returned an error dict), the inner one the presence of
`overall_usage_percent` inside it (`.get(..., 0)` defaults it to 0). -/
structure DiskOverview where
  summary : Option (Option ℚ)
deriving DecidableEq

/-- The analysis dict of `analyze_system_performance` (lines 695-700). -/
structure Analysis where
  status : PyStr
  bottlenecks : List PyStr
  recommendations : List PyStr
  performance_score : ℤ
deriving DecidableEq

def msgHighCpu : PyStr := ("High CPU usage detected").toList

def recHighCpu : PyStr :=
  ("Consider closing unnecessary applications or upgrading CPU").toList

def recMidCpu : PyStr := ("Monitor CPU-intensive processes").toList

def msgLoad : PyStr := ("System load exceeds available CPU cores").toList

def recLoad : PyStr := ("Reduce concurrent processes or upgrade hardware").toList

def msgHighMem : PyStr := ("High memory usage detected").toList

def recHighMem : PyStr :=
  ("Close memory-intensive applications or add more RAM").toList

def recMidMem : PyStr :=
  ("Monitor memory usage and consider upgrading RAM").toList

def msgDisk : PyStr := ("Disk space critically low").toList

def recDisk : PyStr := ("Free up disk space immediately").toList

def recMidDisk : PyStr :=
  ("Consider cleaning up files or upgrading storage").toList

def recOptimal : PyStr := ("System performance appears optimal").toList

def zeroDivMsg : PyStr :=
  ("Could not analyze system performance: division by zero").toList

def statusExcellent : PyStr := ("excellent").toList

def statusGood : PyStr := ("good").toList

def statusFair : PyStr := ("fair").toList

def statusPoor : PyStr := ("poor").toList

/-- The running state of `analyze_system_performance`: the bottleneck list,
the recommendation list and the score, mutated in source order. -/
abbrev AnaSt := List PyStr × List PyStr × ℤ

/-- Lines 710-718: the CPU-usage rule of `analyze_system_performance`. -/
def cpuStep (cpu : CpuOverview) (st : AnaSt) : AnaSt :=
  match cpu.total_usage_percent with
  | some u =>
    if u > 80 then (st.1 ++ [msgHighCpu], st.2.1 ++ [recHighCpu], st.2.2 - 25)
    else if u > 60 then (st.1, st.2.1 ++ [recMidCpu], st.2.2 - 10)
    else st
  | none => st

/-- Lines 721-727: the load-average rule, reached when the division raised
no exception. -/
def loadStep (cpu : CpuOverview) (st : AnaSt) : AnaSt :=
  match cpu.load_average_1min, cpu.cores with
  | some l, some c =>
    if l / (c : ℚ) > 1 then
      (st.1 ++ [msgLoad], st.2.1 ++ [recLoad], st.2.2 - 20)
    else st
  | _, _ => st

/-- Lines 730-738: the memory-usage rule. -/
def memStep (mem : MemOverview) (st : AnaSt) : AnaSt :=
  match mem.used_percent with
  | some u =>
    if u > 85 then (st.1 ++ [msgHighMem], st.2.1 ++ [recHighMem], st.2.2 - 20)
    else if u > 70 then (st.1, st.2.1 ++ [recMidMem], st.2.2 - 5)
    else st
  | none => st

/-- Lines 741-749: the disk-usage rule (`summary.get` defaults to 0). -/
def diskStep (disk : DiskOverview) (st : AnaSt) : AnaSt :=
  match disk.summary with
  | some s =>
    if s.getD 0 > 90 then
      (st.1 ++ [msgDisk], st.2.1 ++ [recDisk], st.2.2 - 30)
    else if s.getD 0 > 80 then (st.1, st.2.1 ++ [recMidDisk], st.2.2 - 10)
    else st
  | none => st

/-- The straight-line body of `analyze_system_performance` (lines 707-767),
run when no exception occurs: the four rules fire in source order on the
initial state `([], [], 100)`, then the status bands and the clamp apply. -/
def analysisCore (cpu : CpuOverview) (mem : MemOverview) (disk : DiskOverview) :
    Analysis :=
  let st := diskStep disk (memStep mem (loadStep cpu (cpuStep cpu ([], [], 100))))
  let score := st.2.2
  let status :=
    if score ≥ 80 then statusExcellent
    else if score ≥ 60 then statusGood
    else if score ≥ 40 then statusFair
    else statusPoor
  let recs := if st.2.1 = [] then [recOptimal] else st.2.1
  { status := status, bottlenecks := st.1, recommendations := recs,
    performance_score := max 0 score }

/-- `analyze_system_performance` with the three overview snapshots passed in,
replacing the nested command invocations.  The only exception the body can
raise is the `ZeroDivisionError` of `load / cores` when the load-average key
is present and `cores` is the `int` 0; the enclosing handler turns it into an
error dict. -/
def analyzeSystemPerformance (cpu : CpuOverview) (mem : MemOverview)
    (disk : DiskOverview) : Except PyStr Analysis :=
  match cpu.load_average_1min, cpu.cores with
  | some _, some 0 => .error zeroDivMsg
  | _, _ => .ok (analysisCore cpu mem disk)

/-- Projection helpers for stating concrete analyzer facts. -/
def anaScore : Except PyStr Analysis → Option ℤ
  | .ok a => some a.performance_score
  | .error _ => none

def anaStatus : Except PyStr Analysis → Option PyStr
  | .ok a => some a.status
  | .error _ => none

def anaBottleneckCount : Except PyStr Analysis → Option ℕ
  | .ok a => some a.bottlenecks.length
  | .error _ => none

/-- A non-empty whitespace-free token (a PID or numeric column of `ps`). -/
def isTok (t : PyStr) : Prop := t ≠ [] ∧ ∀ c ∈ t, pyIsSpace c = false

/-- A non-empty run of intra-line whitespace separating two columns. -/
def isSepWs (w : PyStr) : Prop :=
  w ≠ [] ∧ (∀ c ∈ w, pyIsSpace c = true) ∧ '\n' ∉ w

/-- True when a string is empty or starts with a non-whitespace character. -/
def headNotSpace (s : PyStr) : Bool :=
  match s with
  | [] => true
  | c :: _ => !pyIsSpace c

/-- A command-name field: non-empty, starts with a non-whitespace character,
contains no newline, but may contain internal whitespace. -/
def goodCmd (cmd : PyStr) : Prop :=
  headNotSpace cmd = true ∧ cmd ≠ [] ∧ '\n' ∉ cmd

/-- A well-formed data line of the CPU listing, given by its constituent
fields: `pid`, whitespace, a numeric CPU column with value `val`, whitespace,
and the command name. -/
structure CpuLine where
  pid : PyStr
  ws1 : PyStr
  num : PyStr
  val : ℚ
  ws2 : PyStr
  cmd : PyStr

/-- The raw text of a CPU data line. -/
def CpuLine.render (l : CpuLine) : PyStr :=
  l.pid ++ l.ws1 ++ (l.num ++ l.ws2 ++ l.cmd)

/-- Well-formedness of a CPU data line. -/
def CpuLine.WF (l : CpuLine) : Prop :=
  isTok l.pid ∧ isSepWs l.ws1 ∧ isTok l.num ∧ pyFloat l.num = some l.val ∧
    isSepWs l.ws2 ∧ goodCmd l.cmd

/-- The record the claim expects for a well-formed CPU line. -/
def CpuLine.record (l : CpuLine) : ProcRec := mkCpuRec l.pid l.val l.cmd

/-- A well-formed data line of the memory listing: `pid`, a numeric percent
column with value `pmem`, an integer rss column with value `rss`, and the
command name. -/
structure MemLine where
  pid : PyStr
  ws1 : PyStr
  pmemTok : PyStr
  pmem : ℚ
  ws2 : PyStr
  rssTok : PyStr
  rss : ℤ
  ws3 : PyStr
  cmd : PyStr

/-- The raw text of a memory data line. -/
def MemLine.render (l : MemLine) : PyStr :=
  l.pid ++ l.ws1 ++ (l.pmemTok ++ l.ws2 ++ (l.rssTok ++ l.ws3 ++ l.cmd))

/-- Well-formedness of a memory data line. -/
def MemLine.WF (l : MemLine) : Prop :=
  isTok l.pid ∧ isSepWs l.ws1 ∧ isTok l.pmemTok ∧ pyFloat l.pmemTok = some l.pmem ∧
    isSepWs l.ws2 ∧ isTok l.rssTok ∧ pyInt l.rssTok = some l.rss ∧
    isSepWs l.ws3 ∧ goodCmd l.cmd

/-- The record the claim expects for a well-formed memory line. -/
def MemLine.record (l : MemLine) : ProcRec := mkMemRec l.pid l.pmem l.rss l.cmd

instance (t : PyStr) : Decidable (isTok t) := by
  unfold isTok; infer_instance

instance (w : PyStr) : Decidable (isSepWs w) := by
  unfold isSepWs; infer_instance

instance (c : PyStr) : Decidable (goodCmd c) := by
  unfold goodCmd; infer_instance

instance (l : CpuLine) : Decidable l.WF := by
  unfold CpuLine.WF; infer_instance

instance (l : MemLine) : Decidable l.WF := by
  unfold MemLine.WF; infer_instance

instance {e a : Type} [DecidableEq e] [DecidableEq a] :
    DecidableEq (Except e a) := fun x y =>
  match x, y with
  | .ok u, .ok v => decidable_of_iff (u = v) (by simp)
  | .error u, .error v => decidable_of_iff (u = v) (by simp)
  | .ok _, .error _ => isFalse (by simp)
  | .error _, .ok _ => isFalse (by simp)

/-- The first record of a list carries no `'error'` key (the guard
`'error' in processes[0]` of `sort_processes` is then false); an empty list
is included since `sort_processes` returns it unchanged in either order. -/
def headNoError (l : List ProcRec) : Prop :=
  match l with
  | [] => True
  | p :: _ => p.error = none

/-- The sort keys of the given field are pairwise distinct on the list. -/
def keysDistinct (sort_by : PyStr) (l : List ProcRec) : Prop :=
  if sort_by = sPid then l.Pairwise (fun p q => pidKey p ≠ pidKey q)
  else if sort_by = sCommand then l.Pairwise (fun p q => commandKey p ≠ commandKey q)
  else if sort_by = sCpuPercent then
    l.Pairwise (fun p q => p.cpu_percent.getD 0 ≠ q.cpu_percent.getD 0)
  else if sort_by = sMemoryPercent then
    l.Pairwise (fun p q => p.memory_percent.getD 0 ≠ q.memory_percent.getD 0)
  else if sort_by = sResidentMemoryKb then
    l.Pairwise (fun p q => p.resident_memory_kb.getD 0 ≠ q.resident_memory_kb.getD 0)
  else if sort_by = sNetworkConnections then
    l.Pairwise (fun p q => p.network_connections.getD 0 ≠ q.network_connections.getD 0)
  else True

/-- The spec's CPU deduction rule: over 80% costs 25 points (with a
bottleneck), over 60% costs 10 (recommendation only). -/
def specCpuDeduction (u : Option ℚ) : ℤ :=
  match u with
  | some u => if u > 80 then 25 else if u > 60 then 10 else 0
  | none => 0

/-- The spec's load rule: 1-minute load per core above 1.0 costs 20 points. -/
def specLoadDeduction (l : Option ℚ) (c : Option ℤ) : ℤ :=
  match l, c with
  | some l, some c => if l / (c : ℚ) > 1 then 20 else 0
  | _, _ => 0

/-- The spec's memory rule: above 85% costs 20, above 70% costs 5. -/
def specMemDeduction (u : Option ℚ) : ℤ :=
  match u with
  | some u => if u > 85 then 20 else if u > 70 then 5 else 0
  | none => 0

/-- The spec's disk rule: above 90% costs 30, above 80% costs 10; a missing
percentage inside a present summary counts as 0. -/
def specDiskDeduction (d : Option (Option ℚ)) : ℤ :=
  match d with
  | some s => if s.getD 0 > 90 then 30 else if s.getD 0 > 80 then 10 else 0
  | none => 0

/-- Sum of the spec's independent deductions. -/
def specDeductions (cpu : CpuOverview) (mem : MemOverview) (disk : DiskOverview) : ℤ :=
  specCpuDeduction cpu.total_usage_percent +
    specLoadDeduction cpu.load_average_1min cpu.cores +
    specMemDeduction mem.used_percent + specDiskDeduction disk.summary

/-- Whether the spec's CPU bottleneck fires. -/
def specCpuFlag (u : Option ℚ) : ℕ :=
  match u with
  | some u => if u > 80 then 1 else 0
  | none => 0

/-- Whether the spec's load bottleneck fires. -/
def specLoadFlag (l : Option ℚ) (c : Option ℤ) : ℕ :=
  match l, c with
  | some l, some c => if l / (c : ℚ) > 1 then 1 else 0
  | _, _ => 0

/-- Whether the spec's memory bottleneck fires. -/
def specMemFlag (u : Option ℚ) : ℕ :=
  match u with
  | some u => if u > 85 then 1 else 0
  | none => 0

/-- Whether the spec's disk bottleneck fires. -/
def specDiskFlag (d : Option (Option ℚ)) : ℕ :=
  match d with
  | some s => if s.getD 0 > 90 then 1 else 0
  | none => 0

/-- How many of the spec's bottleneck-flagged rules fire. -/
def specBottleneckCount (cpu : CpuOverview) (mem : MemOverview)
    (disk : DiskOverview) : ℕ :=
  specCpuFlag cpu.total_usage_percent +
    specLoadFlag cpu.load_average_1min cpu.cores +
    specMemFlag mem.used_percent + specDiskFlag disk.summary

/-- The spec's status bands. -/
def specStatus (score : ℤ) : PyStr :=
  if score ≥ 80 then statusExcellent
  else if score ≥ 60 then statusGood
  else if score ≥ 40 then statusFair
  else statusPoor

/-- A concrete environment whose CPU listing parses to 23 processes, used to
check the 23-process / page-size-10 pagination example. -/
def env23 : Env :=
  { cpuOut := ("PID %CPU COMM\n1 1.0 p1\n2 2.0 p2\n3 3.0 p3\n4 4.0 p4\n" ++
      "5 5.0 p5\n6 6.0 p6\n7 7.0 p7\n8 8.0 p8\n9 9.0 p9\n10 10.0 p10\n" ++
      "11 11.0 p11\n12 12.0 p12\n13 13.0 p13\n14 14.0 p14\n15 15.0 p15\n" ++
      "16 16.0 p16\n17 17.0 p17\n18 18.0 p18\n19 19.0 p19\n20 20.0 p20\n" ++
      "21 21.0 p21\n22 22.0 p22\n23 23.0 p23").toList,
    memOut := [], netOut := [] }

/-- Two CPU records with equal `cpu_percent` keys and different commands:
a tie for the `cpu_percent` sort. -/
def tieRecA : ProcRec := mkCpuRec (("1").toList) 5 (("alpha").toList)

def tieRecB : ProcRec := mkCpuRec (("2").toList) 5 (("beta").toList)

/-- A record whose pid token is the negative number `-5`. -/
def negPidRec : ProcRec := mkCpuRec (("-5").toList) 1 (("neg").toList)

/-- A record whose pid token `zzz` is not numeric. -/
def badPidRec : ProcRec := mkCpuRec (("zzz").toList) 2 (("bad").toList)

/-- A record with no `'pid'` key at all. -/
def noPidRec : ProcRec :=
  { pid := none, cpu_percent := some 3, memory_percent := none,
    resident_memory_kb := none, network_connections := none,
    command := some (("nopid").toList), error := none }

/-- Claim C6 counterexample: a run that completes with non-zero exit status 1
returns the captured stdout, not a failure value carrying the cause. -/
theorem c6_counterexample :
    run_command (RunOutcome.completed (("x").toList) 1) = ("x").toList ∧
    (run_command (RunOutcome.completed (("x").toList) 1)).take runErrHead.length ≠
      runErrHead := by
  constructor
  · decide
  · decide

/-- Claim C6 (amended): run_command never raises past its boundary; on
timeout or spawn failure it returns an error string carrying the underlying
cause, and on completion of the child process, whatever its exit status,
it returns the stripped captured standard output. -/
theorem c6_run_command_boundary (o : RunOutcome) :
    (∃ m, (o = RunOutcome.timeout m ∨ o = RunOutcome.spawnFailure m) ∧
      run_command o = runErrHead ++ m) ∨
    (∃ s rc, o = RunOutcome.completed s rc ∧ run_command o = pyStrip s) := by
  cases o with
  | completed s rc => exact Or.inr ⟨s, rc, rfl, rfl⟩
  | timeout m => exact Or.inl ⟨m, Or.inl rfl, rfl⟩
  | spawnFailure m => exact Or.inl ⟨m, Or.inr rfl, rfl⟩

/-- Claim C7: an invalid process_type, or a sort_by that is invalid for the
given category, yields a structured error object (the latter naming the
category's valid options), independently of the command outputs, so no
process data is consulted. -/
theorem c7_validation_rejects (env : Env) (t : PyStr) (page page_size : ℤ)
    (sb so : PyStr) :
    (¬ [sCpu, sMemory, sNetwork].contains (pyLower t) = true →
      getProcessesByCategory env t page page_size sb so =
        .err (invalidTypeMsg t)) ∧
    ([sCpu, sMemory, sNetwork].contains (pyLower t) = true →
      ¬ (validSortFields (pyLower t)).contains (pyLower sb) = true →
      getProcessesByCategory env t page page_size sb so =
        .err (invalidSortMsg (pyLower sb) (pyLower t))) := by
  constructor
  · intro h
    simp only [getProcessesByCategory]
    rw [if_pos h]
  · intro h1 h2
    simp only [getProcessesByCategory]
    rw [if_neg (not_not_intro h1), if_pos h2]

/-- Witness for C7 at concrete invalid inputs. -/
theorem c7_validation_rejects_witness :
    (¬ [sCpu, sMemory, sNetwork].contains (pyLower (("disk").toList)) = true ∧
      getProcessesByCategory env23 (("disk").toList) 1 10 sAuto sDesc =
        .err (invalidTypeMsg (("disk").toList))) ∧
    ([sCpu, sMemory, sNetwork].contains (pyLower sCpu) = true ∧
      ¬ (validSortFields (pyLower sCpu)).contains (pyLower (("rss").toList)) = true ∧
      getProcessesByCategory env23 sCpu 1 10 (("rss").toList) sDesc =
        .err (invalidSortMsg (pyLower (("rss").toList)) (pyLower sCpu))) := by
  refine ⟨⟨by decide, ?_⟩, ⟨by decide, by decide, ?_⟩⟩
  · exact (c7_validation_rejects env23 (("disk").toList) 1 10 sAuto sDesc).1
      (by decide)
  · exact (c7_validation_rejects env23 sCpu 1 10 (("rss").toList) sDesc).2
      (by decide) (by decide)

/-- Claim C8: a page argument below 1 is treated as page 1, a page_size above
100 is clamped to 100, a page_size below 1 defaults to 10, and all other
values are used unchanged, as echoed by the response metadata. -/
theorem c8_clamping (env : Env) (t : PyStr) (page page_size : ℤ)
    (ht : t = sCpu ∨ t = sMemory ∨ t = sNetwork) :
    ∃ r, getProcessesByCategory env t page page_size sAuto sDesc =
        QueryResult.ok r ∧
      r.pagination.current_page = (if page < 1 then 1 else page) ∧
      r.pagination.page_size =
        (if page_size < 1 then 10 else if page_size > 100 then 100 else page_size) := by
  rcases ht with rfl | rfl | rfl <;> exact ⟨_, rfl, rfl, rfl⟩

/-- Witness for C8: page 0 becomes 1, page_size 500 becomes 100. -/
theorem c8_clamping_witness :
    (sCpu = sCpu ∨ sCpu = sMemory ∨ sCpu = sNetwork) ∧
    (∃ r, getProcessesByCategory env23 sCpu 0 500 sAuto sDesc =
        QueryResult.ok r ∧
      r.pagination.current_page = (if (0 : ℤ) < 1 then 1 else 0) ∧
      r.pagination.page_size =
        (if (500 : ℤ) < 1 then 10 else if (500 : ℤ) > 100 then 100 else 500)) :=
  ⟨Or.inl rfl, c8_clamping env23 sCpu 0 500 (Or.inl rfl)⟩

/-- Claim C10: a sort_order that is not (case-insensitively) asc or desc does
not produce an error: it is silently replaced by desc, the query proceeds as
if desc had been passed, and the sorting metadata echoes desc. -/
theorem c10_sort_order_fallback (env : Env) (t : PyStr) (page page_size : ℤ)
    (sb so : PyStr)
    (h1 : [sCpu, sMemory, sNetwork].contains (pyLower t) = true)
    (h2 : (validSortFields (pyLower t)).contains (pyLower sb) = true)
    (h3 : pyLower so ≠ sAsc) (h4 : pyLower so ≠ sDesc) :
    getProcessesByCategory env t page page_size sb so =
      getProcessesByCategory env t page page_size sb sDesc ∧
    ∃ r, getProcessesByCategory env t page page_size sb so =
        QueryResult.ok r ∧ r.sorting.sort_order = sDesc := by
  have h5 : ¬ (([sAsc, sDesc].contains (pyLower so)) = true) := by
    simp [List.elem_eq_mem, h3, h4]
  have h6 : ([sAsc, sDesc].contains (pyLower sDesc)) = true := by decide
  have h7 : pyLower sDesc = sDesc := by decide
  have h1n := not_not_intro h1
  have h2n := not_not_intro h2
  constructor
  · simp only [getProcessesByCategory]
    rw [if_neg h1n, if_neg h5, if_pos h6, h7, if_neg h2n, if_neg h1n]
  · simp only [getProcessesByCategory]
    rw [if_neg h1n, if_neg h5, if_neg h2n]
    exact ⟨_, rfl, rfl⟩

/-- Witness for C10 with the invalid sort_order "upwards". -/
theorem c10_sort_order_fallback_witness :
    ([sCpu, sMemory, sNetwork].contains (pyLower sCpu) = true ∧
      (validSortFields (pyLower sCpu)).contains (pyLower sPid) = true ∧
      pyLower (("upwards").toList) ≠ sAsc ∧ pyLower (("upwards").toList) ≠ sDesc) ∧
    (getProcessesByCategory env23 sCpu 1 10 sPid (("upwards").toList) =
      getProcessesByCategory env23 sCpu 1 10 sPid sDesc ∧
    ∃ r, getProcessesByCategory env23 sCpu 1 10 sPid (("upwards").toList) =
        QueryResult.ok r ∧ r.sorting.sort_order = sDesc) :=
  ⟨⟨by decide, by decide, by decide, by decide⟩,
    c10_sort_order_fallback env23 sCpu 1 10 sPid (("upwards").toList)
      (by decide) (by decide) (by decide) (by decide)⟩

theorem insStable_perm {α K : Type} [LinearOrder K] (key : α → K) (a : α)
    (l : List α) : (insStable key a l).Perm (a :: l) := by
  induction l with
  | nil => exact List.Perm.refl _
  | cons b t ih =>
    simp only [insStable]
    split
    · exact (ih.cons b).trans (List.Perm.swap a b t)
    · exact List.Perm.refl _

theorem pySortAsc_perm {α K : Type} [LinearOrder K] (key : α → K)
    (l : List α) : (pySortAsc key l).Perm l := by
  induction l with
  | nil => exact List.Perm.refl _
  | cons a t ih =>
    exact (insStable_perm key a (pySortAsc key t)).trans (ih.cons a)

theorem insStable_sorted {α K : Type} [LinearOrder K] (key : α → K) (a : α)
    (l : List α) (h : List.Sorted (fun x y => key x ≤ key y) l) :
    List.Sorted (fun x y => key x ≤ key y) (insStable key a l) := by
  induction l with
  | nil => simp [insStable]
  | cons b t ih =>
    rw [List.sorted_cons] at h
    simp only [insStable]
    split
    · rename_i hlt
      rw [List.sorted_cons]
      refine ⟨?_, ih h.2⟩
      intro c hc
      rcases List.mem_cons.mp (((insStable_perm key a t).mem_iff).mp hc) with hc | hc
      · subst hc; exact le_of_lt hlt
      · exact h.1 c hc
    · rename_i hge
      rw [List.sorted_cons]
      refine ⟨?_, List.sorted_cons.mpr h⟩
      intro c hc
      rcases List.mem_cons.mp hc with hc | hc
      · subst hc; exact le_of_not_lt hge
      · exact le_trans (le_of_not_lt hge) (h.1 c hc)

theorem pySortAsc_sorted {α K : Type} [LinearOrder K] (key : α → K)
    (l : List α) : List.Sorted (fun x y => key x ≤ key y) (pySortAsc key l) := by
  induction l with
  | nil => simp [pySortAsc]
  | cons a t ih => exact insStable_sorted key a _ ih

theorem pySortAsc_sorted_strict {α K : Type} [LinearOrder K] (key : α → K)
    (l : List α) (hd : l.Pairwise (fun x y => key x ≠ key y)) :
    List.Sorted (fun x y => key x < key y) (pySortAsc key l) := by
  have hp : (pySortAsc key l).Pairwise (fun x y => key x ≠ key y) :=
    ((pySortAsc_perm key l).pairwise_iff (fun h => h.symm)).mpr hd
  have hs : (pySortAsc key l).Pairwise (fun x y => key x ≤ key y) :=
    pySortAsc_sorted key l
  exact (hs.and hp).imp (fun h => lt_of_le_of_ne h.1 h.2)

theorem pySortAsc_reverse {α K : Type} [LinearOrder K] (key : α → K)
    (l : List α) (hd : l.Pairwise (fun x y => key x ≠ key y)) :
    pySortAsc key l.reverse = pySortAsc key l := by
  haveI : IsAntisymm α (fun x y => key x < key y) :=
    ⟨fun a b h1 h2 => absurd h2 (lt_asymm h1)⟩
  have hdr : l.reverse.Pairwise (fun x y => key x ≠ key y) :=
    ((l.reverse_perm).pairwise_iff (fun h => h.symm)).mpr hd
  have p1 : (pySortAsc key l.reverse).Perm (pySortAsc key l) :=
    ((pySortAsc_perm key l.reverse).trans l.reverse_perm).trans
      (pySortAsc_perm key l).symm
  exact List.eq_of_perm_of_sorted p1
    (pySortAsc_sorted_strict key l.reverse hdr)
    (pySortAsc_sorted_strict key l hd)

theorem pySorted_desc_eq_reverse {α K : Type} [LinearOrder K] (key : α → K)
    (l : List α) (hd : l.Pairwise (fun x y => key x ≠ key y)) :
    pySorted key true l = (pySorted key false l).reverse := by
  simp only [pySorted, if_pos, if_neg, Bool.true_eq_false, Bool.false_eq_true,
    ite_true, ite_false]
  rw [pySortAsc_reverse key l hd]

theorem sortProcesses_pid (p0 : ProcRec) (rest : List ProcRec) (t ord : PyStr)
    (he : p0.error = none)
    (hall : (p0 :: rest).all (fun p => p.pid.isSome) = true) :
    sortProcesses (p0 :: rest) t sPid ord =
      pySorted pidKey (decide (ord = sDesc)) (p0 :: rest) := by
  simp only [sortProcesses, he, Option.isSome_none, Bool.false_eq_true,
    if_false, if_true]
  rw [if_pos hall]

theorem sortProcesses_pid_missing (p0 : ProcRec) (rest : List ProcRec)
    (t ord : PyStr) (he : p0.error = none)
    (hmiss : (p0 :: rest).all (fun p => p.pid.isSome) = false) :
    sortProcesses (p0 :: rest) t sPid ord = p0 :: rest := by
  simp only [sortProcesses, he, Option.isSome_none, Bool.false_eq_true,
    if_false, if_true]
  rw [if_neg (by simp [hmiss])]

theorem sortProcesses_command (p0 : ProcRec) (rest : List ProcRec)
    (t ord : PyStr) (he : p0.error = none) :
    sortProcesses (p0 :: rest) t sCommand ord =
      pySorted commandKey (decide (ord = sDesc)) (p0 :: rest) := by
  simp only [sortProcesses, he, Option.isSome_none, Bool.false_eq_true,
    if_false, if_true]
  rw [if_neg (by decide)]

theorem sortProcesses_cpuPercent (p0 : ProcRec) (rest : List ProcRec)
    (t ord : PyStr) (he : p0.error = none) :
    sortProcesses (p0 :: rest) t sCpuPercent ord =
      pySorted (fun p => p.cpu_percent.getD 0) (decide (ord = sDesc))
        (p0 :: rest) := by
  simp only [sortProcesses, he, Option.isSome_none, Bool.false_eq_true,
    if_false, if_true]
  rw [if_neg (by decide), if_neg (by decide)]

theorem sortProcesses_memoryPercent (p0 : ProcRec) (rest : List ProcRec)
    (t ord : PyStr) (he : p0.error = none) :
    sortProcesses (p0 :: rest) t sMemoryPercent ord =
      pySorted (fun p => p.memory_percent.getD 0) (decide (ord = sDesc))
        (p0 :: rest) := by
  simp only [sortProcesses, he, Option.isSome_none, Bool.false_eq_true,
    if_false, if_true]
  rw [if_neg (by decide), if_neg (by decide), if_neg (by decide)]

theorem sortProcesses_residentMemoryKb (p0 : ProcRec) (rest : List ProcRec)
    (t ord : PyStr) (he : p0.error = none) :
    sortProcesses (p0 :: rest) t sResidentMemoryKb ord =
      pySorted (fun p => p.resident_memory_kb.getD 0) (decide (ord = sDesc))
        (p0 :: rest) := by
  simp only [sortProcesses, he, Option.isSome_none, Bool.false_eq_true,
    if_false, if_true]
  rw [if_neg (by decide), if_neg (by decide), if_neg (by decide), if_neg (by decide)]

theorem sortProcesses_networkConnections (p0 : ProcRec) (rest : List ProcRec)
    (t ord : PyStr) (he : p0.error = none) :
    sortProcesses (p0 :: rest) t sNetworkConnections ord =
      pySorted (fun p => p.network_connections.getD 0) (decide (ord = sDesc))
        (p0 :: rest) := by
  simp only [sortProcesses, he, Option.isSome_none, Bool.false_eq_true,
    if_false, if_true]
  rw [if_neg (by decide), if_neg (by decide), if_neg (by decide), if_neg (by decide), if_neg (by decide)]

/-- Claim C5 counterexample: two records tied on `cpu_percent` keep their
original order under both desc and asc (Python's sort is stable and
implements `reverse=True` without disturbing ties), so the desc sequence is
not the reverse of the asc sequence. -/
theorem c5_counterexample :
    sortProcesses [tieRecA, tieRecB] sCpu sCpuPercent sDesc ≠
      (sortProcesses [tieRecA, tieRecB] sCpu sCpuPercent sAsc).reverse := by
  decide

/-- Claim C5 (amended): for a process list whose first record carries no
error key, with every record carrying a pid when sorting by pid, and whose
sort keys for the requested field are pairwise distinct, sorting desc and
sorting asc produce exactly reversed sequences; on tied keys both orders are
instead stable, keeping tied records in input order. -/
theorem c5_desc_reverse_asc (procs : List ProcRec) (t f : PyStr)
    (hf : f = sPid ∨ f = sCommand ∨ f = sCpuPercent ∨ f = sMemoryPercent ∨
      f = sResidentMemoryKb ∨ f = sNetworkConnections)
    (he : headNoError procs)
    (hpid : f = sPid → procs.all (fun p => p.pid.isSome) = true)
    (hd : keysDistinct f procs) :
    sortProcesses procs t f sDesc = (sortProcesses procs t f sAsc).reverse := by
  have e1 : (decide (sDesc = sDesc)) = true := by decide
  have e2 : (decide (sAsc = sDesc)) = false := by decide
  cases procs with
  | nil => rcases hf with rfl | rfl | rfl | rfl | rfl | rfl <;> rfl
  | cons p0 rest =>
    have he' : p0.error = none := he
    rcases hf with rfl | rfl | rfl | rfl | rfl | rfl
    · have hall := hpid rfl
      rw [sortProcesses_pid p0 rest t sDesc he' hall,
        sortProcesses_pid p0 rest t sAsc he' hall, e1, e2]
      exact pySorted_desc_eq_reverse pidKey (p0 :: rest) hd
    · rw [sortProcesses_command p0 rest t sDesc he',
        sortProcesses_command p0 rest t sAsc he', e1, e2]
      exact pySorted_desc_eq_reverse commandKey (p0 :: rest) hd
    · have hd' : (p0 :: rest).Pairwise
          (fun p q => (p.cpu_percent.getD 0 : ℚ) ≠ q.cpu_percent.getD 0) := hd
      rw [sortProcesses_cpuPercent p0 rest t sDesc he',
        sortProcesses_cpuPercent p0 rest t sAsc he', e1, e2]
      exact pySorted_desc_eq_reverse (fun p => p.cpu_percent.getD 0)
        (p0 :: rest) hd'
    · have hd' : (p0 :: rest).Pairwise
          (fun p q => (p.memory_percent.getD 0 : ℚ) ≠ q.memory_percent.getD 0) := hd
      rw [sortProcesses_memoryPercent p0 rest t sDesc he',
        sortProcesses_memoryPercent p0 rest t sAsc he', e1, e2]
      exact pySorted_desc_eq_reverse (fun p => p.memory_percent.getD 0)
        (p0 :: rest) hd'
    · have hd' : (p0 :: rest).Pairwise
          (fun p q => (p.resident_memory_kb.getD 0 : ℤ) ≠ q.resident_memory_kb.getD 0) := hd
      rw [sortProcesses_residentMemoryKb p0 rest t sDesc he',
        sortProcesses_residentMemoryKb p0 rest t sAsc he', e1, e2]
      exact pySorted_desc_eq_reverse (fun p => p.resident_memory_kb.getD 0)
        (p0 :: rest) hd'
    · have hd' : (p0 :: rest).Pairwise
          (fun p q => (p.network_connections.getD 0 : ℤ) ≠ q.network_connections.getD 0) := hd
      rw [sortProcesses_networkConnections p0 rest t sDesc he',
        sortProcesses_networkConnections p0 rest t sAsc he', e1, e2]
      exact pySorted_desc_eq_reverse (fun p => p.network_connections.getD 0)
        (p0 :: rest) hd'

/-- Witness for C5 on two records with distinct `cpu_percent` keys. -/
theorem c5_desc_reverse_asc_witness :
    ((sCpuPercent = sPid ∨ sCpuPercent = sCommand ∨ sCpuPercent = sCpuPercent ∨
        sCpuPercent = sMemoryPercent ∨ sCpuPercent = sResidentMemoryKb ∨
        sCpuPercent = sNetworkConnections) ∧
      headNoError [negPidRec, badPidRec] ∧
      keysDistinct sCpuPercent [negPidRec, badPidRec]) ∧
    sortProcesses [negPidRec, badPidRec] sCpu sCpuPercent sDesc =
      (sortProcesses [negPidRec, badPidRec] sCpu sCpuPercent sAsc).reverse :=
  ⟨⟨Or.inr (Or.inr (Or.inl rfl)), rfl,
      (by decide :
        List.Pairwise
          (fun p q => (p.cpu_percent.getD 0 : ℚ) ≠ q.cpu_percent.getD 0)
          [negPidRec, badPidRec])⟩,
    c5_desc_reverse_asc [negPidRec, badPidRec] sCpu sCpuPercent
      (Or.inr (Or.inr (Or.inl rfl))) rfl
      (fun h => absurd h (by decide))
      (by decide :
        List.Pairwise
          (fun p q => (p.cpu_percent.getD 0 : ℚ) ≠ q.cpu_percent.getD 0)
          [negPidRec, badPidRec])⟩

/-- Claim C9 counterexample: ascending pid sort of a list holding the numeric
pid `-5` and the non-numeric pid `zzz` leaves the non-numeric record second,
because it compares as the sentinel 0 and not as the minimal value; and a
list containing a record with no pid key at all is returned unchanged
(`KeyError` is caught by the outer handler), not sorted with that record
first. -/
theorem c9_counterexample :
    sortProcesses [negPidRec, badPidRec] sCpu sPid sAsc =
      [negPidRec, badPidRec] ∧
    (sortProcesses [negPidRec, badPidRec] sCpu sPid sAsc).head? ≠
      some badPidRec ∧
    sortProcesses [negPidRec, noPidRec] sCpu sPid sAsc =
      [negPidRec, noPidRec] := by
  refine ⟨by decide, by decide, by decide⟩

/-- Claim C9 (amended): sorting by pid never raises past `sort_processes`.
When every record carries a pid, the result is a permutation of the input
sorted by the numeric pid key, where a non-numeric pid compares as the
sentinel 0 (not as the minimal value); when some record lacks a pid key,
the `KeyError` raised inside `sorted` is caught and the input list is
returned unchanged. -/
theorem c9_pid_sorting (procs : List ProcRec) (t : PyStr)
    (he : headNoError procs) :
    (procs.all (fun p => p.pid.isSome) = true →
      ((sortProcesses procs t sPid sAsc).Perm procs ∧
        List.Sorted (fun p q => pidKey p ≤ pidKey q)
          (sortProcesses procs t sPid sAsc)) ∧
      ((sortProcesses procs t sPid sDesc).Perm procs ∧
        List.Sorted (fun p q => pidKey q ≤ pidKey p)
          (sortProcesses procs t sPid sDesc))) ∧
    (procs.all (fun p => p.pid.isSome) = false →
      ∀ ord, sortProcesses procs t sPid ord = procs) := by
  have e1 : (decide (sDesc = sDesc)) = true := by decide
  have e2 : (decide (sAsc = sDesc)) = false := by decide
  cases procs with
  | nil =>
    constructor
    · intro _
      exact ⟨⟨List.Perm.refl _, List.sorted_nil⟩,
        ⟨List.Perm.refl _, List.sorted_nil⟩⟩
    · intro h
      simp at h
  | cons p0 rest =>
    have he' : p0.error = none := he
    constructor
    · intro hall
      refine ⟨⟨?_, ?_⟩, ⟨?_, ?_⟩⟩
      · rw [sortProcesses_pid p0 rest t sAsc he' hall, e2]
        exact pySortAsc_perm pidKey (p0 :: rest)
      · rw [sortProcesses_pid p0 rest t sAsc he' hall, e2]
        exact pySortAsc_sorted pidKey (p0 :: rest)
      · rw [sortProcesses_pid p0 rest t sDesc he' hall, e1]
        exact ((pySortAsc pidKey (p0 :: rest).reverse).reverse_perm).trans
          ((pySortAsc_perm pidKey (p0 :: rest).reverse).trans
            ((p0 :: rest).reverse_perm))
      · rw [sortProcesses_pid p0 rest t sDesc he' hall, e1]
        exact List.pairwise_reverse.mpr
          (pySortAsc_sorted pidKey (p0 :: rest).reverse)
    · intro hmiss ord
      exact sortProcesses_pid_missing p0 rest t ord he' hmiss

/-- Witness for C9 on concrete lists. -/
theorem c9_pid_sorting_witness :
    (headNoError [badPidRec, negPidRec] ∧
      [badPidRec, negPidRec].all (fun p => p.pid.isSome) = true ∧
      headNoError [negPidRec, noPidRec] ∧
      [negPidRec, noPidRec].all (fun p => p.pid.isSome) = false) ∧
    (((sortProcesses [badPidRec, negPidRec] sCpu sPid sAsc).Perm
        [badPidRec, negPidRec] ∧
      List.Sorted (fun p q => pidKey p ≤ pidKey q)
        (sortProcesses [badPidRec, negPidRec] sCpu sPid sAsc)) ∧
      ((sortProcesses [badPidRec, negPidRec] sCpu sPid sDesc).Perm
        [badPidRec, negPidRec] ∧
      List.Sorted (fun p q => pidKey q ≤ pidKey p)
        (sortProcesses [badPidRec, negPidRec] sCpu sPid sDesc))) ∧
    sortProcesses [negPidRec, noPidRec] sCpu sPid sAsc =
      [negPidRec, noPidRec] :=
  ⟨⟨rfl, by decide, rfl, by decide⟩,
    (c9_pid_sorting [badPidRec, negPidRec] sCpu rfl).1 (by decide),
    (c9_pid_sorting [negPidRec, noPidRec] sCpu rfl).2 (by decide) sAsc⟩

theorem splitNl_no_nl (l : PyStr) (h : '\n' ∉ l) : splitNl l = [l] := by
  induction l with
  | nil => rfl
  | cons c cs ih =>
    simp only [List.mem_cons, not_or] at h
    simp only [splitNl]
    rw [if_neg (fun hc => h.1 hc.symm), ih h.2]

theorem splitNl_append (l rest : PyStr) (h : '\n' ∉ l) :
    splitNl (l ++ '\n' :: rest) = l :: splitNl rest := by
  induction l with
  | nil => simp [splitNl]
  | cons c cs ih =>
    simp only [List.mem_cons, not_or] at h
    simp only [List.cons_append, splitNl, List.append_eq]
    rw [if_neg (fun hc => h.1 hc.symm), ih h.2]

theorem splitNl_joinNl (ls : List PyStr) (hne : ls ≠ [])
    (h : ∀ l ∈ ls, '\n' ∉ l) : splitNl (joinNl ls) = ls := by
  induction ls with
  | nil => exact absurd rfl hne
  | cons l tl ih =>
    cases tl with
    | nil => exact splitNl_no_nl l (h l (List.mem_cons_self l []))
    | cons m ms =>
      have hj : joinNl (l :: m :: ms) = l ++ '\n' :: joinNl (m :: ms) := rfl
      rw [hj, splitNl_append l _ (h l (List.mem_cons_self _ _)),
        ih (by simp) (fun x hx => h x (List.mem_cons_of_mem l hx))]

theorem takeWhile_not_space (t rest : PyStr)
    (ht : ∀ c ∈ t, pyIsSpace c = false)
    (hr : ∀ c, rest.head? = some c → pyIsSpace c = true) :
    (t ++ rest).takeWhile (fun c => !pyIsSpace c) = t ∧
      (t ++ rest).dropWhile (fun c => !pyIsSpace c) = rest := by
  induction t with
  | nil =>
    simp only [List.nil_append]
    cases rest with
    | nil => simp
    | cons c cs =>
      have hc := hr c rfl
      exact ⟨by rw [List.takeWhile_cons]; simp [hc],
        by rw [List.dropWhile_cons]; simp [hc]⟩
  | cons a t' ih =>
    have ha := ht a (List.mem_cons_self _ _)
    have iht := ih (fun c hc => ht c (List.mem_cons_of_mem a hc))
    constructor
    · simp only [List.cons_append, List.takeWhile_cons, ha]
      simp [iht.1]
    · simp only [List.cons_append, List.dropWhile_cons, ha]
      simp [iht.2]

theorem dropWhile_space_append (w rest : PyStr)
    (hw : ∀ c ∈ w, pyIsSpace c = true) :
    (w ++ rest).dropWhile pyIsSpace = rest.dropWhile pyIsSpace := by
  induction w with
  | nil => rfl
  | cons a w' ih =>
    have ha := hw a (List.mem_cons_self _ _)
    rw [List.cons_append, List.dropWhile_cons]
    simp [ha, ih (fun c hc => hw c (List.mem_cons_of_mem a hc))]

theorem dropWhile_space_head (s : PyStr)
    (h : ∀ c, s.head? = some c → pyIsSpace c = false) :
    s.dropWhile pyIsSpace = s := by
  cases s with
  | nil => rfl
  | cons c cs =>
    rw [List.dropWhile_cons]
    simp [h c rfl]

theorem head_not_space_of_tok (t r : PyStr) (ht : isTok t) :
    ∀ c, (t ++ r).head? = some c → pyIsSpace c = false := by
  obtain ⟨htne, htc⟩ := ht
  cases t with
  | nil => exact absurd rfl htne
  | cons a t' =>
    intro c hc
    rw [List.cons_append] at hc
    cases hc
    exact htc a (List.mem_cons_self _ _)

theorem goodCmd_head (cmd : PyStr) (h : goodCmd cmd) :
    ∀ c, cmd.head? = some c → pyIsSpace c = false := by
  intro c hc
  cases cmd with
  | nil => cases hc
  | cons a l =>
    cases hc
    have := h.1
    simpa [headNotSpace] using this

theorem pySplitGo_step (n : Nat) (t w rest : PyStr) (ht : isTok t)
    (hw : ∀ c ∈ w, pyIsSpace c = true) (hwne : w ≠ [])
    (hr : ∀ c, rest.head? = some c → pyIsSpace c = false) :
    pySplitGo (n + 1) (t ++ (w ++ rest)) = t :: pySplitGo n rest := by
  obtain ⟨htne, htc⟩ := ht
  cases t with
  | nil => exact absurd rfl htne
  | cons a t' =>
    have hwhead : ∀ c, (w ++ rest).head? = some c → pyIsSpace c = true := by
      cases w with
      | nil => exact absurd rfl hwne
      | cons w0 w' =>
        intro c hc
        rw [List.cons_append] at hc
        cases hc
        exact hw w0 (List.mem_cons_self _ _)
    have htw := takeWhile_not_space (a :: t') (w ++ rest) htc hwhead
    rw [List.cons_append]
    simp only [pySplitGo]
    rw [← List.cons_append, htw.1, htw.2, dropWhile_space_append w rest hw,
      dropWhile_space_head rest hr]

theorem pySplitGo_last (cmd : PyStr) (h : goodCmd cmd) :
    pySplitGo 0 cmd = [cmd] := by
  cases cmd with
  | nil => exact absurd rfl h.2.1
  | cons a l => rfl

theorem pySplitMax_cpu (l : CpuLine) (h : l.WF) :
    pySplitMax 2 l.render = [l.pid, l.num, l.cmd] := by
  obtain ⟨hpid, hws1, hnum, hval, hws2, hcmd⟩ := h
  have hassoc : l.render = l.pid ++ (l.ws1 ++ (l.num ++ (l.ws2 ++ l.cmd))) := by
    simp [CpuLine.render, List.append_assoc]
  unfold pySplitMax
  rw [hassoc, dropWhile_space_head _ (head_not_space_of_tok l.pid _ hpid),
    pySplitGo_step 1 l.pid l.ws1 _ hpid hws1.2.1 hws1.1
      (head_not_space_of_tok l.num _ hnum),
    pySplitGo_step 0 l.num l.ws2 l.cmd hnum hws2.2.1 hws2.1
      (goodCmd_head l.cmd hcmd),
    pySplitGo_last l.cmd hcmd]

theorem pySplitMax_mem (l : MemLine) (h : l.WF) :
    pySplitMax 3 l.render = [l.pid, l.pmemTok, l.rssTok, l.cmd] := by
  obtain ⟨hpid, hws1, hpm, hpmv, hws2, hrss, hrssv, hws3, hcmd⟩ := h
  have hassoc : l.render =
      l.pid ++ (l.ws1 ++ (l.pmemTok ++ (l.ws2 ++ (l.rssTok ++ (l.ws3 ++ l.cmd))))) := by
    simp [MemLine.render, List.append_assoc]
  unfold pySplitMax
  rw [hassoc, dropWhile_space_head _ (head_not_space_of_tok l.pid _ hpid),
    pySplitGo_step 2 l.pid l.ws1 _ hpid hws1.2.1 hws1.1
      (head_not_space_of_tok l.pmemTok _ hpm),
    pySplitGo_step 1 l.pmemTok l.ws2 _ hpm hws2.2.1 hws2.1
      (head_not_space_of_tok l.rssTok _ hrss),
    pySplitGo_step 0 l.rssTok l.ws3 l.cmd hrss hws3.2.1 hws3.1
      (goodCmd_head l.cmd hcmd),
    pySplitGo_last l.cmd hcmd]

theorem mem_dropWhile_of_false (p : Char → Bool) (l : PyStr) (c : Char)
    (hc : c ∈ l) (hp : p c = false) : c ∈ l.dropWhile p := by
  induction l with
  | nil => cases hc
  | cons a tl ih =>
    rw [List.dropWhile_cons]
    by_cases pa : p a = true
    · simp only [pa, if_true]
      rcases List.mem_cons.mp hc with rfl | hmem
      · rw [pa] at hp; cases hp
      · exact ih hmem
    · simp only [pa, if_false]
      exact hc

theorem pyStrip_ne_nil (s : PyStr) (c : Char) (hc : c ∈ s)
    (hns : pyIsSpace c = false) : pyStrip s ≠ [] := by
  intro hnil
  have h1 : c ∈ s.dropWhile pyIsSpace := mem_dropWhile_of_false _ s c hc hns
  have h2 : c ∈ (s.dropWhile pyIsSpace).reverse := List.mem_reverse.mpr h1
  have h3 : c ∈ ((s.dropWhile pyIsSpace).reverse.dropWhile pyIsSpace) :=
    mem_dropWhile_of_false _ _ c h2 hns
  have h4 : c ∈ pyStrip s := List.mem_reverse.mpr h3
  rw [hnil] at h4
  cases h4

theorem cpuLine_render_no_nl (l : CpuLine) (h : l.WF) : '\n' ∉ l.render := by
  obtain ⟨hpid, hws1, hnum, hval, hws2, hcmd⟩ := h
  intro hmem
  simp only [CpuLine.render, List.mem_append] at hmem
  rcases hmem with (h1 | h2) | (h3 | h4) | h5
  · exact absurd (hpid.2 _ h1) (by decide)
  · exact hws1.2.2 h2
  · exact absurd (hnum.2 _ h3) (by decide)
  · exact hws2.2.2 h4
  · exact hcmd.2.2 h5

theorem memLine_render_no_nl (l : MemLine) (h : l.WF) : '\n' ∉ l.render := by
  obtain ⟨hpid, hws1, hpm, hpmv, hws2, hrss, hrssv, hws3, hcmd⟩ := h
  intro hmem
  simp only [MemLine.render, List.mem_append] at hmem
  rcases hmem with (h1 | h2) | (h3 | h4) | (h5 | h6) | h7
  · exact absurd (hpid.2 _ h1) (by decide)
  · exact hws1.2.2 h2
  · exact absurd (hpm.2 _ h3) (by decide)
  · exact hws2.2.2 h4
  · exact absurd (hrss.2 _ h5) (by decide)
  · exact hws3.2.2 h6
  · exact hcmd.2.2 h7

theorem pyStrip_render_cpu (l : CpuLine) (h : l.WF) : pyStrip l.render ≠ [] := by
  obtain ⟨⟨htne, htc⟩, _⟩ := h
  cases hp : l.pid with
  | nil => exact absurd hp htne
  | cons a t' =>
    have hmem : a ∈ l.pid := by rw [hp]; exact List.mem_cons_self a t'
    refine pyStrip_ne_nil l.render a ?_ (htc a hmem)
    unfold CpuLine.render
    exact List.mem_append_left _ (List.mem_append_left _ hmem)

theorem pyStrip_render_mem (l : MemLine) (h : l.WF) : pyStrip l.render ≠ [] := by
  obtain ⟨⟨htne, htc⟩, _⟩ := h
  cases hp : l.pid with
  | nil => exact absurd hp htne
  | cons a t' =>
    have hmem : a ∈ l.pid := by rw [hp]; exact List.mem_cons_self a t'
    refine pyStrip_ne_nil l.render a ?_ (htc a hmem)
    unfold MemLine.render
    exact List.mem_append_left _ (List.mem_append_left _ hmem)

theorem parseCpuLine_wf (l : CpuLine) (h : l.WF) :
    parseCpuLine l.render = some l.record := by
  have hsplit := pySplitMax_cpu l h
  have hstrip := pyStrip_render_cpu l h
  obtain ⟨hpid, hws1, hnum, hval, hws2, hcmd⟩ := h
  simp only [parseCpuLine]
  rw [if_neg hstrip, hsplit]
  simp [hval, CpuLine.record]

theorem parseMemLine_wf (l : MemLine) (h : l.WF) :
    parseMemLine l.render = some l.record := by
  have hsplit := pySplitMax_mem l h
  have hstrip := pyStrip_render_mem l h
  obtain ⟨hpid, hws1, hpm, hpmv, hws2, hrss, hrssv, hws3, hcmd⟩ := h
  simp only [parseMemLine]
  rw [if_neg hstrip, hsplit]
  simp [hpmv, hrssv, MemLine.record]

theorem filterMap_eq_map_of {α β : Type} (f : α → Option β) (g : α → β)
    (l : List α) (h : ∀ a ∈ l, f a = some (g a)) :
    l.filterMap f = l.map g := by
  induction l with
  | nil => rfl
  | cons a tl ih =>
    rw [List.filterMap_cons, h a (List.mem_cons_self _ _), List.map_cons,
      ih (fun x hx => h x (List.mem_cons_of_mem a hx))]

/-- Claim C1: for a process-listing text made of a header line and K
well-formed data lines, the unbounded CPU and memory parsers return exactly
the K records, each preserving the pid token, the numeric metric value(s)
and the full command string (internal whitespace included): the line is
split into at most N whitespace-delimited parts with the last part left
unsplit. -/
theorem c1_unbounded_parsers_preserve (header : PyStr) (hh : '\n' ∉ header)
    (cls : List CpuLine) (hc : ∀ l ∈ cls, l.WF)
    (mls : List MemLine) (hm : ∀ l ∈ mls, l.WF) :
    getAllCpuProcesses (joinNl (header :: cls.map CpuLine.render)) =
      cls.map CpuLine.record ∧
    getAllMemoryProcesses (joinNl (header :: mls.map MemLine.render)) =
      mls.map MemLine.record := by
  constructor
  · have hlines : ∀ x ∈ header :: cls.map CpuLine.render, '\n' ∉ x := by
      intro x hx
      rcases List.mem_cons.mp hx with rfl | hx'
      · exact hh
      · obtain ⟨l, hl, rfl⟩ := List.mem_map.mp hx'
        exact cpuLine_render_no_nl l (hc l hl)
    unfold getAllCpuProcesses
    rw [splitNl_joinNl _ (by simp) hlines]
    simp only [List.drop_succ_cons, List.drop_zero, List.filterMap_map]
    exact filterMap_eq_map_of _ CpuLine.record cls
      (fun l hl => parseCpuLine_wf l (hc l hl))
  · have hlines : ∀ x ∈ header :: mls.map MemLine.render, '\n' ∉ x := by
      intro x hx
      rcases List.mem_cons.mp hx with rfl | hx'
      · exact hh
      · obtain ⟨l, hl, rfl⟩ := List.mem_map.mp hx'
        exact memLine_render_no_nl l (hm l hl)
    unfold getAllMemoryProcesses
    rw [splitNl_joinNl _ (by simp) hlines]
    simp only [List.drop_succ_cons, List.drop_zero, List.filterMap_map]
    exact filterMap_eq_map_of _ MemLine.record mls
      (fun l hl => parseMemLine_wf l (hm l hl))

/-- Witness for C1 on a concrete CPU listing with a multi-word command and a
concrete memory listing. -/
theorem c1_unbounded_parsers_preserve_witness :
    ('\n' ∉ ("PID %CPU COMM").toList ∧
      (∀ l ∈ [CpuLine.mk (("12").toList) [' '] (("3").toList) 3
          [' '] (("My App").toList)], CpuLine.WF l) ∧
      (∀ l ∈ [MemLine.mk (("44").toList) [' '] (("2").toList) 2
          [' '] (("123456").toList) 123456 [' ']
          (("Safari Helper").toList)], MemLine.WF l)) ∧
    (getAllCpuProcesses (joinNl ((("PID %CPU COMM").toList) ::
        [CpuLine.mk (("12").toList) [' '] (("3").toList) 3
          [' '] (("My App").toList)].map CpuLine.render)) =
      [CpuLine.mk (("12").toList) [' '] (("3").toList) 3
          [' '] (("My App").toList)].map CpuLine.record ∧
      getAllMemoryProcesses (joinNl ((("PID %CPU COMM").toList) ::
        [MemLine.mk (("44").toList) [' '] (("2").toList) 2
          [' '] (("123456").toList) 123456 [' ']
          (("Safari Helper").toList)].map MemLine.render)) =
      [MemLine.mk (("44").toList) [' '] (("2").toList) 2
          [' '] (("123456").toList) 123456 [' ']
          (("Safari Helper").toList)].map MemLine.record) :=
  ⟨⟨by decide, by decide, by decide⟩,
    c1_unbounded_parsers_preserve (("PID %CPU COMM").toList) (by decide)
      _ (by decide) _ (by decide)⟩

theorem parseCpuLine_bad (bad : PyStr)
    (hfl : pyFloat ((pySplitMax 2 bad).getD 1 []) = none) :
    parseCpuLine bad = none := by
  simp only [parseCpuLine]
  split
  · rfl
  · split
    · rw [hfl]
    · rfl

theorem parseMemLine_bad (bad : PyStr)
    (hfl : pyFloat ((pySplitMax 3 bad).getD 1 []) = none ∨
      pyInt ((pySplitMax 3 bad).getD 2 []) = none) :
    parseMemLine bad = none := by
  simp only [parseMemLine]
  split
  · rfl
  · split
    · rcases hfl with hf | hi
      · rw [hf]
      · cases h1 : pyFloat ((pySplitMax 3 bad).getD 1 []) with
        | none => rfl
        | some v => rw [hi]
    · rfl

theorem parseCpuLineTop_bad (bad : PyStr)
    (hlen : (pySplitMax 2 bad).length ≥ 3)
    (hfl : pyFloat ((pySplitMax 2 bad).getD 1 []) = none) :
    parseCpuLineTop bad = .error floatErrMsg := by
  simp only [parseCpuLineTop]
  rw [if_pos hlen, hfl]

/-- Claim C2 counterexample: in the bounded top-N variants a data line whose
numeric column does not parse is not silently dropped: the parse raises
`ValueError` (modelled as `Except.error`), losing the whole category, while
the unbounded variant drops the line. -/
theorem c2_counterexample :
    getCpuIntensiveProcesses 5 (("PID %CPU COMM\n12 abc cmd").toList) =
      .error floatErrMsg ∧
    getMemoryIntensiveProcesses 5
      (("PID PMEM RSS COMM\n12 1.0 xyz cmd").toList) = .error intErrMsg ∧
    getAllCpuProcesses (("PID %CPU COMM\n12 abc cmd").toList) = [] := by
  refine ⟨by decide, by decide, by decide⟩

/-- Claim C2 (amended): in the unbounded variants a data line whose numeric
columns fail to parse is silently dropped and the records produced from the
other lines are unaffected; in the bounded top-N variants such a line inside
the scanned window instead raises `ValueError` out of the parse (contained
only by the per-category guard in the facade). -/
theorem c2_numeric_failure_handling :
    (∀ header pre post bad,
      (∀ x ∈ header :: (pre ++ bad :: post), '\n' ∉ x) →
      pyFloat ((pySplitMax 2 bad).getD 1 []) = none →
      getAllCpuProcesses (joinNl (header :: (pre ++ bad :: post))) =
        getAllCpuProcesses (joinNl (header :: (pre ++ post)))) ∧
    (∀ header pre post bad,
      (∀ x ∈ header :: (pre ++ bad :: post), '\n' ∉ x) →
      (pyFloat ((pySplitMax 3 bad).getD 1 []) = none ∨
        pyInt ((pySplitMax 3 bad).getD 2 []) = none) →
      getAllMemoryProcesses (joinNl (header :: (pre ++ bad :: post))) =
        getAllMemoryProcesses (joinNl (header :: (pre ++ post)))) ∧
    (∀ header bad, '\n' ∉ header → '\n' ∉ bad →
      (pySplitMax 2 bad).length ≥ 3 →
      pyFloat ((pySplitMax 2 bad).getD 1 []) = none →
      getCpuIntensiveProcesses 5 (joinNl [header, bad]) =
        .error floatErrMsg) := by
  refine ⟨?_, ?_, ?_⟩
  · intro header pre post bad hno hfl
    have hno2 : ∀ x ∈ header :: (pre ++ post), '\n' ∉ x := by
      intro x hx
      apply hno
      rcases List.mem_cons.mp hx with rfl | hx'
      · exact List.mem_cons_self _ _
      · rcases List.mem_append.mp hx' with h | h
        · exact List.mem_cons_of_mem _ (List.mem_append_left _ h)
        · exact List.mem_cons_of_mem _
            (List.mem_append_right _ (List.mem_cons_of_mem _ h))
    unfold getAllCpuProcesses
    rw [splitNl_joinNl _ (by simp) hno, splitNl_joinNl _ (by simp) hno2]
    simp only [List.drop_succ_cons, List.drop_zero, List.filterMap_append,
      List.filterMap_cons, parseCpuLine_bad bad hfl]
  · intro header pre post bad hno hfl
    have hno2 : ∀ x ∈ header :: (pre ++ post), '\n' ∉ x := by
      intro x hx
      apply hno
      rcases List.mem_cons.mp hx with rfl | hx'
      · exact List.mem_cons_self _ _
      · rcases List.mem_append.mp hx' with h | h
        · exact List.mem_cons_of_mem _ (List.mem_append_left _ h)
        · exact List.mem_cons_of_mem _
            (List.mem_append_right _ (List.mem_cons_of_mem _ h))
    unfold getAllMemoryProcesses
    rw [splitNl_joinNl _ (by simp) hno, splitNl_joinNl _ (by simp) hno2]
    simp only [List.drop_succ_cons, List.drop_zero, List.filterMap_append,
      List.filterMap_cons, parseMemLine_bad bad hfl]
  · intro header bad hh hb hlen hfl
    unfold getCpuIntensiveProcesses
    rw [splitNl_joinNl [header, bad] (by simp) ?hln]
    case hln =>
      intro x hx
      rcases List.mem_cons.mp hx with rfl | hx'
      · exact hh
      · rcases List.mem_cons.mp hx' with rfl | hx''
        · exact hb
        · cases hx''
    simp only [List.drop_succ_cons, List.drop_zero, List.take_succ_cons,
      List.take_nil, topLoop, parseCpuLineTop_bad bad hlen hfl]

/-- Witness for C2 on concrete lines: a good line, a bad line and another
good line for the unbounded parsers; a bad line for the bounded parser. -/
theorem c2_numeric_failure_handling_witness :
    ((∀ x ∈ (("HDR").toList) ::
        ([("1 1.0 a").toList] ++ (("2 bad b").toList) :: [("3 3.0 c").toList]),
        '\n' ∉ x) ∧
      pyFloat ((pySplitMax 2 (("2 bad b").toList)).getD 1 []) = none) ∧
    getAllCpuProcesses (joinNl ((("HDR").toList) ::
        ([("1 1.0 a").toList] ++ (("2 bad b").toList) :: [("3 3.0 c").toList]))) =
      getAllCpuProcesses (joinNl ((("HDR").toList) ::
        ([("1 1.0 a").toList] ++ [("3 3.0 c").toList]))) :=
  ⟨⟨by decide, by decide⟩,
    (c2_numeric_failure_handling).1 (("HDR").toList) [("1 1.0 a").toList]
      [("3 3.0 c").toList] (("2 bad b").toList) (by decide) (by decide)⟩

theorem ceilDiv_eq (t p : ℤ) (_ht : 0 ≤ t) (hp : 1 ≤ p) :
    (t + p - 1) / p = ⌈(t : ℚ) / (p : ℚ)⌉ := by
  have hp0 : (0 : ℚ) < (p : ℚ) := by exact_mod_cast hp
  have key := Int.ediv_add_emod (t + p - 1) p
  have hr1 : 0 ≤ (t + p - 1) % p := Int.emod_nonneg _ (by omega)
  have hr2 : (t + p - 1) % p < p := Int.emod_lt_of_pos _ (by omega)
  symm
  rw [Int.ceil_eq_iff]
  constructor
  · rw [lt_div_iff₀ hp0]
    have g1 : ((t + p - 1) / p - 1) * p < t := by
      calc ((t + p - 1) / p - 1) * p
          = t - 1 - (t + p - 1) % p := by linear_combination key
        _ < t := by omega
    calc ((((t + p - 1) / p : ℤ) : ℚ) - 1) * (p : ℚ)
        = (((t + p - 1) / p - 1) * p : ℤ) := by push_cast; ring
      _ < (t : ℚ) := by exact_mod_cast g1
  · rw [div_le_iff₀ hp0]
    have g2 : t ≤ ((t + p - 1) / p) * p := by
      calc t ≤ t + p - 1 - (t + p - 1) % p := by omega
        _ = ((t + p - 1) / p) * p := by linear_combination -key
    calc (t : ℚ) ≤ ((((t + p - 1) / p) * p : ℤ) : ℚ) := by exact_mod_cast g2
      _ = (((t + p - 1) / p : ℤ) : ℚ) * (p : ℚ) := by push_cast; ring

/-- Claim C3: for validated page and page_size, the response of
get_processes_by_category satisfies total_pages = ceil(total/page_size), a
page of length min(page_size, total - (page-1)*page_size) clamped to be
non-negative, has_next_page iff page < total_pages, and has_previous_page
iff page > 1. -/
theorem c3_pagination (env : Env) (t : PyStr) (page page_size : ℤ) (sb : PyStr)
    (h1 : [sCpu, sMemory, sNetwork].contains (pyLower t) = true)
    (h2 : (validSortFields (pyLower t)).contains (pyLower sb) = true)
    (hp : 1 ≤ page) (hps1 : 1 ≤ page_size) (hps2 : page_size ≤ 100) :
    ∃ r, getProcessesByCategory env t page page_size sb sDesc =
        QueryResult.ok r ∧
      r.pagination.total_pages =
        ⌈(r.pagination.total_processes : ℚ) / (page_size : ℚ)⌉ ∧
      (r.processes.length : ℤ) =
        max 0 (min page_size
          (r.pagination.total_processes - (page - 1) * page_size)) ∧
      (r.pagination.has_next_page = true ↔ page < r.pagination.total_pages) ∧
      (r.pagination.has_previous_page = true ↔ 1 < page) := by
  simp only [getProcessesByCategory]
  rw [if_neg (not_not_intro h1), if_neg (not_not_intro h2),
    if_neg (by omega : ¬ page < 1), if_neg (by omega : ¬ page_size < 1),
    if_neg (by omega : ¬ page_size > 100)]
  refine ⟨_, rfl, ?_, ?_, ?_, ?_⟩
  · exact (ceilDiv_eq _ page_size (Int.natCast_nonneg _) hps1).symm ▸ rfl
  · have hS : 0 ≤ (page - 1) * page_size :=
      mul_nonneg (by omega) (by omega)
    simp only [pySlice, List.length_take, List.length_drop]
    generalize (page - 1) * page_size = S at hS ⊢
    push_cast
    omega
  · simp
  · simp

/-- Witness for C3: the 23-process environment with page_size 10; pages 1, 2
and 3 have 10, 10 and 3 items, total_pages is 3, has_next_page holds on
pages 1-2 only and has_previous_page fails on page 1 only. -/
theorem c3_pagination_witness :
    ([sCpu, sMemory, sNetwork].contains (pyLower sCpu) = true ∧
      (validSortFields (pyLower sCpu)).contains (pyLower sAuto) = true ∧
      (1 : ℤ) ≤ 2 ∧ (1 : ℤ) ≤ 10 ∧ (10 : ℤ) ≤ 100 ∧
      QueryResult.pageLen (getProcessesByCategory env23 sCpu 1 10 sAuto sDesc)
        = some 10 ∧
      QueryResult.pageLen (getProcessesByCategory env23 sCpu 2 10 sAuto sDesc)
        = some 10 ∧
      QueryResult.pageLen (getProcessesByCategory env23 sCpu 3 10 sAuto sDesc)
        = some 3 ∧
      QueryResult.pageMeta (getProcessesByCategory env23 sCpu 1 10 sAuto sDesc)
        = some ⟨1, 10, 23, 3, true, false⟩ ∧
      QueryResult.pageMeta (getProcessesByCategory env23 sCpu 2 10 sAuto sDesc)
        = some ⟨2, 10, 23, 3, true, true⟩ ∧
      QueryResult.pageMeta (getProcessesByCategory env23 sCpu 3 10 sAuto sDesc)
        = some ⟨3, 10, 23, 3, false, true⟩) ∧
    (∃ r, getProcessesByCategory env23 sCpu 2 10 sAuto sDesc =
        QueryResult.ok r ∧
      r.pagination.total_pages =
        ⌈(r.pagination.total_processes : ℚ) / ((10 : ℤ) : ℚ)⌉ ∧
      (r.processes.length : ℤ) =
        max 0 (min 10 (r.pagination.total_processes - (2 - 1) * 10)) ∧
      (r.pagination.has_next_page = true ↔ 2 < r.pagination.total_pages) ∧
      (r.pagination.has_previous_page = true ↔ (1 : ℤ) < 2)) :=
  ⟨⟨by decide, by decide, by decide, by decide, by decide, by decide,
      by decide, by decide, by decide, by decide, by decide⟩,
    c3_pagination env23 sCpu 2 10 sAuto (by decide) (by decide) (by decide)
      (by decide) (by decide)⟩

theorem analyze_ok (cpu : CpuOverview) (mem : MemOverview) (disk : DiskOverview)
    (hz : ¬ (cpu.load_average_1min.isSome = true ∧ cpu.cores = some 0)) :
    analyzeSystemPerformance cpu mem disk = .ok (analysisCore cpu mem disk) := by
  unfold analyzeSystemPerformance
  rcases hl : cpu.load_average_1min with _ | l
  · rfl
  · rcases hc : cpu.cores with _ | c
    · rfl
    · cases c with
      | ofNat n =>
        cases n with
        | zero => exact absurd ⟨by rw [hl]; rfl, by rw [hc]; rfl⟩ hz
        | succ k => rfl
      | negSucc n => rfl

theorem cpuStep_spec (cpu : CpuOverview) (st : AnaSt) :
    (cpuStep cpu st).2.2 = st.2.2 - specCpuDeduction cpu.total_usage_percent ∧
    (cpuStep cpu st).1.length =
      st.1.length + specCpuFlag cpu.total_usage_percent := by
  rcases hu : cpu.total_usage_percent with _ | u
  · simp [cpuStep, specCpuDeduction, specCpuFlag, hu]
  · simp only [cpuStep, specCpuDeduction, specCpuFlag, hu]
    split_ifs <;> simp

theorem loadStep_spec (cpu : CpuOverview) (st : AnaSt) :
    (loadStep cpu st).2.2 =
      st.2.2 - specLoadDeduction cpu.load_average_1min cpu.cores ∧
    (loadStep cpu st).1.length =
      st.1.length + specLoadFlag cpu.load_average_1min cpu.cores := by
  rcases hl : cpu.load_average_1min with _ | l <;>
    rcases hc : cpu.cores with _ | c
  · simp [loadStep, specLoadDeduction, specLoadFlag, hl, hc]
  · simp [loadStep, specLoadDeduction, specLoadFlag, hl, hc]
  · simp [loadStep, specLoadDeduction, specLoadFlag, hl, hc]
  · simp only [loadStep, specLoadDeduction, specLoadFlag, hl, hc]
    split_ifs <;> simp

theorem memStep_spec (mem : MemOverview) (st : AnaSt) :
    (memStep mem st).2.2 = st.2.2 - specMemDeduction mem.used_percent ∧
    (memStep mem st).1.length =
      st.1.length + specMemFlag mem.used_percent := by
  rcases hm : mem.used_percent with _ | u
  · simp [memStep, specMemDeduction, specMemFlag, hm]
  · simp only [memStep, specMemDeduction, specMemFlag, hm]
    split_ifs <;> simp

theorem diskStep_spec (disk : DiskOverview) (st : AnaSt) :
    (diskStep disk st).2.2 = st.2.2 - specDiskDeduction disk.summary ∧
    (diskStep disk st).1.length =
      st.1.length + specDiskFlag disk.summary := by
  rcases hd : disk.summary with _ | s
  · simp [diskStep, specDiskDeduction, specDiskFlag, hd]
  · simp only [diskStep, specDiskDeduction, specDiskFlag, hd]
    split_ifs <;> simp

/-- Claim C4: the analyzer starts from 100, applies each applicable deduction
independently (CPU over 80 costs 25 with a bottleneck, over 60 costs 10
without; load per core over 1.0 costs 20 with a bottleneck; memory over 85
costs 20 with a bottleneck, over 70 costs 5 without; disk over 90 costs 30
with a bottleneck, over 80 costs 10 without), clamps the final score at 0,
and assigns status excellent/good/fair/poor at the 80/60/40 thresholds; the
bottleneck list has exactly one entry per flagged rule that fired. -/
theorem c4_analyzer_scoring (cpu : CpuOverview) (mem : MemOverview)
    (disk : DiskOverview)
    (hz : ¬ (cpu.load_average_1min.isSome = true ∧ cpu.cores = some 0)) :
    ∃ a, analyzeSystemPerformance cpu mem disk = .ok a ∧
      a.performance_score = max 0 (100 - specDeductions cpu mem disk) ∧
      a.status = specStatus (100 - specDeductions cpu mem disk) ∧
      a.bottlenecks.length = specBottleneckCount cpu mem disk := by
  have h1 := cpuStep_spec cpu ([], [], 100)
  have h2 := loadStep_spec cpu (cpuStep cpu ([], [], 100))
  have h3 := memStep_spec mem (loadStep cpu (cpuStep cpu ([], [], 100)))
  have h4 := diskStep_spec disk
    (memStep mem (loadStep cpu (cpuStep cpu ([], [], 100))))
  simp only [List.length_nil] at h1 h2 h3 h4
  have hscore :
      (diskStep disk (memStep mem (loadStep cpu (cpuStep cpu ([], [], 100))))).2.2 =
        100 - specDeductions cpu mem disk := by
    simp only [specDeductions]
    omega
  refine ⟨_, analyze_ok cpu mem disk hz, ?_, ?_, ?_⟩
  · simp only [analysisCore]
    omega
  · simp only [analysisCore]
    rw [hscore]
    simp only [specStatus]
  · simp only [analysisCore, specBottleneckCount]
    omega

/-- Witness for C4: CPU usage 85, memory used 90, disk used 95, load rule
not triggered: score 25, status poor, exactly three bottlenecks. -/
theorem c4_analyzer_scoring_witness :
    (¬ ((CpuOverview.mk (some 85) none none).load_average_1min.isSome = true ∧
        (CpuOverview.mk (some 85) none none).cores = some 0)) ∧
    (anaScore (analyzeSystemPerformance (CpuOverview.mk (some 85) none none)
        (MemOverview.mk (some 90)) (DiskOverview.mk (some (some 95)))) =
      some 25 ∧
      anaStatus (analyzeSystemPerformance (CpuOverview.mk (some 85) none none)
        (MemOverview.mk (some 90)) (DiskOverview.mk (some (some 95)))) =
      some statusPoor ∧
      anaBottleneckCount
        (analyzeSystemPerformance (CpuOverview.mk (some 85) none none)
          (MemOverview.mk (some 90)) (DiskOverview.mk (some (some 95)))) =
      some 3) ∧
    (∃ a, analyzeSystemPerformance (CpuOverview.mk (some 85) none none)
        (MemOverview.mk (some 90)) (DiskOverview.mk (some (some 95))) =
        .ok a ∧
      a.performance_score = max 0 (100 -
        specDeductions (CpuOverview.mk (some 85) none none)
          (MemOverview.mk (some 90)) (DiskOverview.mk (some (some 95)))) ∧
      a.status = specStatus (100 -
        specDeductions (CpuOverview.mk (some 85) none none)
          (MemOverview.mk (some 90)) (DiskOverview.mk (some (some 95)))) ∧
      a.bottlenecks.length =
        specBottleneckCount (CpuOverview.mk (some 85) none none)
          (MemOverview.mk (some 90)) (DiskOverview.mk (some (some 95)))) :=
  ⟨by decide, ⟨by decide, by decide, by decide⟩,
    c4_analyzer_scoring (CpuOverview.mk (some 85) none none)
      (MemOverview.mk (some 90)) (DiskOverview.mk (some (some 95)))
      (by decide)⟩
